import Mathlib

/-!
Shallow embedding of the imposter-game session coordinator
(`src/backend/GameManager.js`, `src/backend/MessageProtocol.js`,
`src/backend/RoomManager.js` and the PlayerManager module), together with
theorems checking the specification's claims against it.

Conventions: JavaScript objects used as string-keyed dictionaries are
modelled as insertion-ordered association lists; machine timestamps are
`Nat` milliseconds supplied explicitly as a `now` argument; `setTimeout`
timers are modelled by recording which pending timer (if any) is armed;
fallible handlers return `Except String` carrying the thrown message.
Best-effort database writes have no in-memory effect and are omitted, as
are console logs.
-/

/-- Game phases, the values of `GameManager.gameState.phase`. -/
inductive Phase where
  | waiting
  | question
  | discussion
  | voting
  | results
deriving DecidableEq, Repr

/-- A collected vote, the object pushed by `GameManager.handleVote`:
`{ playerId, targetId, timestamp }`. -/
structure Vote where
  playerId : String
  targetId : String
  timestamp : Nat
deriving DecidableEq, Repr

/-- A player record as built by `PlayerManager.addPlayer` (the `players`
map values); `GameManager.gameState.players` holds these records, since
`updatePlayers` is always fed `PlayerManager.getActivePlayers()`. -/
structure PlayerRec where
  id : String
  name : String
  roomCode : Option String
  ready : Bool
  isActive : Bool
  clientId : Option String
deriving DecidableEq, Repr

/-- A JavaScript object used as a string-to-number dictionary
(`voteCounts` in `calculateVoteResults`), kept in key insertion order. -/
abbrev JsNumObj := List (String × Nat)

/-- `o[k] || 0`: dictionary read with a zero default. -/
def jsGet (o : JsNumObj) (k : String) : Nat :=
  match o.find? (fun e => e.1 == k) with
  | some e => e.2
  | none => 0

/-- Whether key `k` is present in the object. -/
def jsHas (o : JsNumObj) (k : String) : Bool :=
  (o.find? (fun e => e.1 == k)).isSome

/-- `o[k] = v`: overwrite in place if present, else append (JavaScript
objects remember insertion order for non-index string keys). -/
def jsSet (o : JsNumObj) (k : String) (v : Nat) : JsNumObj :=
  if jsHas o k then o.map (fun e => if e.1 == k then (k, v) else e)
  else o ++ [(k, v)]

/-- Decimal value of a digit-character list (most significant first). -/
def digitsToNat (cs : List Char) : Nat :=
  cs.foldl (fun n c => n * 10 + (c.toNat - 48)) 0

/-- Whether `cs` is the canonical decimal representation of a natural
number: nonempty, all ASCII digits, no leading zero except `"0"` itself. -/
def isCanonicalDecimal (cs : List Char) : Bool :=
  match cs with
  | [] => false
  | [c] => c.isDigit
  | c :: rest => c.isDigit && !(c == '0') && rest.all (fun d => d.isDigit)

/-- Whether `s` is a JavaScript array-index property key: the canonical
decimal string of an integer `n` with `0 ≤ n < 2^32 - 1`.  `Object.entries`
enumerates such keys first, in ascending numeric order. -/
def isArrayIndex (s : String) : Bool :=
  isCanonicalDecimal s.data && digitsToNat s.data < 4294967295

/-- Numeric value of an array-index key (used only for sorting them). -/
def idxVal (s : String) : Nat := digitsToNat s.data

/-- Insertion sort of array-index entries by ascending numeric key. -/
def insertByIdx (e : String × Nat) : JsNumObj → JsNumObj
  | [] => [e]
  | f :: rest =>
      if idxVal e.1 ≤ idxVal f.1 then e :: f :: rest else f :: insertByIdx e rest

/-- Sort a list of array-index entries by ascending numeric key. -/
def sortByIdx (l : JsNumObj) : JsNumObj := l.foldr insertByIdx []

/-- `Object.entries(o)` per the ECMAScript ordinary own-property-key order:
array-index keys in ascending numeric order first, then the remaining
string keys in insertion order. -/
def jsEntries (o : JsNumObj) : JsNumObj :=
  sortByIdx (o.filter (fun e => isArrayIndex e.1)) ++
    o.filter (fun e => !isArrayIndex e.1)

/-- The object returned by `GameManager.calculateVoteResults`. -/
structure VoteResults where
  voteCounts : JsNumObj
  mostVotedPlayer : Option String
  imposter : Option String
  playersWon : Bool
  totalVotes : Nat
deriving DecidableEq, Repr

/-- The vote-counting loop: `voteCounts[vote.targetId] =
(voteCounts[vote.targetId] || 0) + 1` over the votes in order. -/
def tallyVotes (votes : List Vote) : JsNumObj :=
  votes.foldl (fun o v => jsSet o v.targetId (jsGet o v.targetId + 1)) []

/-- The most-voted scan: starting from `(null, 0)`, take an entry whenever
its count is strictly greater than the running maximum. -/
def pickMostVoted (entries : JsNumObj) : Option String × Nat :=
  entries.foldl (fun acc e => if acc.2 < e.2 then (some e.1, e.2) else acc)
    (none, 0)

/-- `GameManager.calculateVoteResults`, as a function of the collected
votes and the current imposter id. -/
def calculateVoteResults (votes : List Vote) (imposter : Option String) :
    VoteResults :=
  let voteCounts := tallyVotes votes
  let mv := pickMostVoted (jsEntries voteCounts)
  { voteCounts := voteCounts
    mostVotedPlayer := mv.1
    imposter := imposter
    playersWon := mv.1 == imposter
    totalVotes := votes.length }

/-- `GameManager.gameState`. -/
structure GameState where
  phase : Phase
  players : List PlayerRec
  imposter : Option String
  questionId : Option Nat
  discussionEndsAt : Option Nat
  votes : List Vote
  results : Option VoteResults
deriving DecidableEq, Repr

/-- Which pending `setTimeout` is armed in `GameManager.phaseTimer`:
the discussion timer (fires `transitionPhase('voting')`), the voting
timeout (fires `transitionPhase('results')`), or the results delay
(fires `transitionPhase('waiting')`). -/
inductive TimerKind where
  | toVoting
  | toResults
  | toWaiting
deriving DecidableEq, Repr

/-- A `GameManager` instance: its game state plus the armed phase timer. -/
structure GMState where
  gameState : GameState
  phaseTimer : Option TimerKind
deriving DecidableEq, Repr

/-- The constructor's initial `gameState`. -/
def initialGameState : GameState :=
  { phase := .waiting, players := [], imposter := none, questionId := none
    discussionEndsAt := none, votes := [], results := none }

/-- A freshly constructed `GameManager`. -/
def initGM : GMState := { gameState := initialGameState, phaseTimer := none }

/-- The `additionalData` argument of `transitionPhase`. -/
structure TransitionData where
  questionId : Option Nat := none
  imposter : Option String := none
deriving Repr

/-- JavaScript truthiness of a nullable string (`null` and `''` falsy). -/
def truthyStr : Option String → Bool
  | some s => !(s == "")
  | none => false

/-- JavaScript truthiness of a nullable number (`null` and `0` falsy). -/
def truthyNat : Option Nat → Bool
  | some n => !(n == 0)
  | none => false

/-- `GameManager.handleQuestionPhase`: record question id and imposter
when (truthily) present in the transition data. -/
def handleQuestionPhase (gs : GameState) (data : TransitionData) : GameState :=
  let gs1 := if truthyNat data.questionId then
    { gs with questionId := data.questionId } else gs
  if truthyStr data.imposter then { gs1 with imposter := data.imposter } else gs1

/-- `GameManager.discussionDuration` (ms). -/
def discussionDuration : Nat := 120000

/-- `GameManager.transitionPhase`: set the new phase, clear any pending
timer, then run the phase-specific setup (`handleQuestionPhase`,
`handleDiscussionPhase`, `handleVotingPhase`, `handleResultsPhase`,
`handleWaitingPhase`).  The database mirror write and the `phase_change`
broadcast have no effect on this state. -/
def transitionPhase (st : GMState) (newPhase : Phase) (data : TransitionData)
    (now : Nat) : GMState :=
  let gs := { st.gameState with phase := newPhase }
  match newPhase with
  | .question => { gameState := handleQuestionPhase gs data, phaseTimer := none }
  | .discussion =>
      { gameState := { gs with discussionEndsAt := some (now + discussionDuration) }
        phaseTimer := some .toVoting }
  | .voting =>
      { gameState := { gs with votes := [], discussionEndsAt := none }
        phaseTimer := some .toResults }
  | .results =>
      { gameState :=
          { gs with results := some (calculateVoteResults gs.votes gs.imposter) }
        phaseTimer := some .toWaiting }
  | .waiting =>
      { gameState :=
          { gs with imposter := none, questionId := none, votes := []
                    results := none, discussionEndsAt := none }
        phaseTimer := none }

/-- `GameManager.handleVote`: reject outside the voting phase, reject a
duplicate voter, otherwise push the vote and, when the collected votes
reach the player count, clear the voting timeout and transition to
results. -/
def handleVote (st : GMState) (playerId targetId : String) (now : Nat) :
    Except String GMState :=
  if st.gameState.phase ≠ Phase.voting then
    .error "Voting is not currently active"
  else if (st.gameState.votes.find? (fun v => v.playerId == playerId)).isSome then
    .error "Player has already voted"
  else
    let gs1 := { st.gameState with
      votes := st.gameState.votes ++
        [{ playerId := playerId, targetId := targetId, timestamp := now }] }
    if gs1.players.length ≤ gs1.votes.length then
      .ok (transitionPhase { gameState := gs1, phaseTimer := none } .results {} now)
    else
      .ok { gameState := gs1, phaseTimer := st.phaseTimer }

/-- The object returned by `GameManager.getPublicGameState`. -/
structure PublicGameState where
  phase : Phase
  players : List PlayerRec
  questionId : Option Nat
  discussionEndsAt : Option Nat
  votesReceived : Nat
  totalPlayers : Nat
  results : Option VoteResults
deriving DecidableEq, Repr

/-- `GameManager.getPublicGameState`. -/
def getPublicGameState (gs : GameState) : PublicGameState :=
  { phase := gs.phase, players := gs.players, questionId := gs.questionId
    discussionEndsAt := gs.discussionEndsAt, votesReceived := gs.votes.length
    totalPlayers := gs.players.length, results := gs.results }

/-- `GameManager.updatePlayers`. -/
def updatePlayers (st : GMState) (players : List PlayerRec) : GMState :=
  { st with gameState := { st.gameState with players := players } }

/-! ### Reachability model

Events correspond to the calls that `MessageProtocol` and the armed timers
make into the `GameManager`.  `updatePlayersEv` is the router calling
`updatePlayers(getActivePlayers())` after a join or leave; its argument is
the new active-player list.  `voteEv` is an authenticated `vote` message:
a connection only carries a `playerId` after a successful join, and a join
both inserts the player into the player map and refreshes
`gameState.players`, while every removal of that player also destroys the
connection — so at this boundary the voter is always one of the current
`gameState.players`.  `startGameEv i` is `handleStartGame` with the random
imposter choice made explicit as the index `i`.  `forcePhaseEv` is the
`force_phase_transition` admin message, and `timerFireEv` fires the
currently armed `setTimeout`, if any.  Guard failures (thrown errors)
leave the state unchanged. -/

/-- Inbound events that mutate the `GameManager` state. -/
inductive Ev where
  | updatePlayersEv (players : List PlayerRec)
  | startGameEv (i : Nat) (now : Nat)
  | voteEv (voter target : String) (now : Nat)
  | newGameEv (now : Nat)
  | forcePhaseEv (phase : Phase) (now : Nat)
  | timerFireEv (now : Nat)
deriving Repr

/-- Fire the armed phase timer: the discussion timer transitions to
voting, the voting timeout to results, the results delay to waiting. -/
def fireTimer (st : GMState) (now : Nat) : GMState :=
  match st.phaseTimer with
  | none => st
  | some .toVoting => transitionPhase st .voting {} now
  | some .toResults => transitionPhase st .results {} now
  | some .toWaiting => transitionPhase st .waiting {} now

/-- One event step of the coordinator. -/
def step (st : GMState) (e : Ev) : GMState :=
  match e with
  | .updatePlayersEv ps => updatePlayers st ps
  | .startGameEv i now =>
      if st.gameState.phase = Phase.waiting ∧ 2 ≤ st.gameState.players.length then
        match st.gameState.players.get? i with
        | some p => transitionPhase st .question
            { questionId := some 1, imposter := some p.id } now
        | none => st
      else st
  | .voteEv voter target now =>
      if st.gameState.players.any (fun p => p.id == voter) then
        match handleVote st voter target now with
        | .ok st1 => st1
        | .error _ => st
      else st
  | .newGameEv now =>
      if st.gameState.phase = Phase.results then
        transitionPhase st .waiting {} now
      else st
  | .forcePhaseEv p now => transitionPhase st p {} now
  | .timerFireEv now => fireTimer st now

/-- Run a trace of events from the initial `GameManager` state. -/
def run (evs : List Ev) : GMState := evs.foldl step initGM

/-- `e` cannot shrink the player list below its current size. -/
def evKeepsBound (st : GMState) (e : Ev) : Bool :=
  match e with
  | .updatePlayersEv ps => st.gameState.players.length ≤ ps.length
  | _ => true

/-- No event of the trace shrinks the player list (players may join but
none leaves or is evicted). -/
def nonShrink : GMState → List Ev → Bool
  | _, [] => true
  | st, e :: rest => evKeepsBound st e && nonShrink (step st e) rest

/-- Whether an event is the admin `force_phase_transition` path. -/
def isForce : Ev → Bool
  | .forcePhaseEv _ _ => true
  | _ => false

/-- The trace never uses the admin `force_phase_transition` path. -/
def noForce (evs : List Ev) : Bool := evs.all (fun e => !isForce e)

/-! ### PlayerManager, RoomManager and the message protocol

`Map`s and `Set`s are modelled as insertion-ordered association lists and
duplicate-free lists; `ws.close` has no modelled state.  The unawaited
inner `removePlayer` call made by `removeClient` is run to completion in
place: the deferral of its post-`await` tail only reorders best-effort
work, it does not change the final state. -/

/-- `map.get(k)` for a string-keyed `Map`. -/
def mapGet (m : List (String × α)) (k : String) : Option α :=
  (m.find? (fun e => e.1 == k)).map (fun e => e.2)

/-- `map.set(k, v)`: overwrite in place, else append. -/
def mapSet (m : List (String × α)) (k : String) (v : α) : List (String × α) :=
  if (m.find? (fun e => e.1 == k)).isSome then
    m.map (fun e => if e.1 == k then (k, v) else e)
  else m ++ [(k, v)]

/-- `map.delete(k)`. -/
def mapDel (m : List (String × α)) (k : String) : List (String × α) :=
  m.filter (fun e => !(e.1 == k))

/-- `set.add(x)` (insertion ordered, duplicate free). -/
def setAdd (s : List String) (x : String) : List String :=
  if s.contains x then s else s ++ [x]

/-- `set.delete(x)`. -/
def setDel (s : List String) (x : String) : List String :=
  s.filter (fun y => !(y == x))

/-- `x || null` on a nullable string. -/
def optTruthy (o : Option String) : Option String :=
  if truthyStr o then o else none

/-- `x || d` on a nullable string with a string default. -/
def jsOr (o : Option String) (d : String) : String :=
  match optTruthy o with
  | some s => s
  | none => d

/-- A client record in `PlayerManager.clients`: the associated player id
(null until joined) and the room code stored in its `playerData`. -/
structure ClientRec where
  playerId : Option String
  roomCode : Option String
deriving DecidableEq, Repr

/-- A room tracked by `RoomManager`: member player ids, member client
ids and the host designation. -/
structure Room where
  players : List String
  clients : List String
  hostId : Option String
deriving DecidableEq, Repr

/-- `PlayerManager` state plus the `RoomManager` room map it uses. -/
structure PMState where
  clients : List (String × ClientRec)
  players : List (String × PlayerRec)
  rooms : List (String × Room)
deriving DecidableEq, Repr

/-- `RoomManager.ensureRoom`. -/
def ensureRoom (rooms : List (String × Room)) (code : String) :
    List (String × Room) :=
  if (mapGet rooms code).isSome then rooms
  else mapSet rooms code { players := [], clients := [], hostId := none }

/-- `RoomManager.addClientToRoom`. -/
def rmAddClientToRoom (rooms : List (String × Room)) (code clientId : String) :
    List (String × Room) :=
  let rooms1 := ensureRoom rooms code
  match mapGet rooms1 code with
  | some r => mapSet rooms1 code { r with clients := setAdd r.clients clientId }
  | none => rooms1

/-- `RoomManager.addPlayerToRoom`. -/
def rmAddPlayerToRoom (rooms : List (String × Room)) (code playerId : String)
    (makeHostIfFirst : Bool) : List (String × Room) :=
  let rooms1 := ensureRoom rooms code
  match mapGet rooms1 code with
  | some r =>
      let r1 := { r with players := setAdd r.players playerId }
      let r2 := if makeHostIfFirst && !truthyStr r1.hostId then
        { r1 with hostId := some playerId } else r1
      mapSet rooms1 code r2
  | none => rooms1

/-- `RoomManager.removeClientFromRoom` (deletes an empty room). -/
def rmRemoveClientFromRoom (rooms : List (String × Room))
    (code clientId : String) : List (String × Room) :=
  match mapGet rooms code with
  | none => rooms
  | some r =>
      let r1 := { r with clients := setDel r.clients clientId }
      if r1.clients.isEmpty && r1.players.isEmpty then mapDel rooms code
      else mapSet rooms code r1

/-- `RoomManager.removePlayerFromRoom` (re-elects the host from the
remaining members and deletes an empty room). -/
def rmRemovePlayerFromRoom (rooms : List (String × Room))
    (code playerId : String) : List (String × Room) :=
  match mapGet rooms code with
  | none => rooms
  | some r =>
      let r1 := { r with players := setDel r.players playerId }
      let r2 := if r1.hostId == some playerId then
        { r1 with hostId := optTruthy r1.players.head? } else r1
      if r2.clients.isEmpty && r2.players.isEmpty then mapDel rooms code
      else mapSet rooms code r2

/-- Outbound messages whose emission the claims talk about. -/
inductive OutMsg where
  | errorMsg (clientId message code : String)
  | playerListUpdate (roomCode : Option String) (players : List PlayerRec)
      (totalPlayers : Nat)
  | chatMessage (playerId : Option String) (playerName message : String)
      (timestamp : Nat)
  | joinSuccess (clientId playerId roomCode : String)
deriving DecidableEq, Repr

/-- `MessageProtocol.sendError`: the error envelope sent back to the
offending connection. -/
def sendError (clientId message : String) : OutMsg :=
  .errorMsg clientId message "PROTOCOL_ERROR"

/-- `PlayerManager.broadcastPlayerList`: the `player_list_update` message,
scoped to a room when a code is given. -/
def broadcastPlayerList (pm : PMState) (roomCode : Option String) : OutMsg :=
  let listSource := match roomCode with
    | some rc => (pm.players.map (fun e => e.2)).filter
        (fun p => p.roomCode == some rc)
    | none => pm.players.map (fun e => e.2)
  .playerListUpdate roomCode listSource listSource.length

/-- `PlayerManager.findClientByPlayerId`. -/
def findClientByPlayerId (pm : PMState) (pid : String) : Option String :=
  (pm.clients.find? (fun e => e.2.playerId == some pid)).map (fun e => e.1)

/-- `PlayerManager.getPlayerById` (a null id looks up nothing). -/
def getPlayerById (pm : PMState) (playerId : Option String) : Option PlayerRec :=
  match playerId with
  | some pid => mapGet pm.players pid
  | none => none

/-- `PlayerManager.getActivePlayers`. -/
def getActivePlayers (pm : PMState) : List PlayerRec :=
  (pm.players.map (fun e => e.2)).filter (fun p => p.isActive)

mutual

/-- `PlayerManager.removePlayer`, with a fuel bound on the
`removePlayer`/`removeClient` mutual recursion (the recursion depth is
at most two in any reachable configuration; any fuel large enough gives
the function's real behaviour).  Returns the new state and the emitted
broadcasts. -/
def removePlayerFuel : Nat → PMState → String → PMState × List OutMsg
  | 0, pm, _ => (pm, [])
  | Nat.succ fuel, pm, playerId =>
      match mapGet pm.players playerId with
      | none => (pm, [])
      | some player =>
          let step1 : PMState × List OutMsg :=
            match optTruthy player.clientId with
            | some cid =>
                match mapGet pm.clients cid with
                | some _ => removeClientFuel fuel pm cid
                | none => (pm, [])
            | none => (pm, [])
          let pm2 : PMState :=
            { step1.1 with players := mapDel step1.1.players playerId }
          match optTruthy player.roomCode with
          | some rc =>
              let pm3 :=
                { pm2 with rooms := rmRemovePlayerFromRoom pm2.rooms rc playerId }
              (pm3, step1.2 ++ [broadcastPlayerList pm3 (some rc)])
          | none => (pm2, step1.2 ++ [broadcastPlayerList pm2 none])

/-- `PlayerManager.removeClient`, fuel-bounded like `removePlayerFuel`. -/
def removeClientFuel : Nat → PMState → String → PMState × List OutMsg
  | 0, pm, _ => (pm, [])
  | Nat.succ fuel, pm, clientId =>
      match mapGet pm.clients clientId with
      | none => (pm, [])
      | some client =>
          let pm1 : PMState := { pm with clients := mapDel pm.clients clientId }
          let step2 : PMState × List OutMsg :=
            match optTruthy client.playerId with
            | some pid =>
                if pm1.clients.any (fun e => e.2.playerId == some pid) then
                  (pm1, [])
                else removePlayerFuel fuel pm1 pid
            | none => (pm1, [])
          let pm3 : PMState :=
            match optTruthy client.roomCode with
            | some rc =>
                { step2.1 with
                    rooms := rmRemoveClientFromRoom step2.1.rooms rc clientId }
            | none => step2.1
          (pm3, step2.2)

end

/-- The `join` payload shape (`playerName` and `roomCode` are
schema-required strings, `playerId` and `email` optional). -/
structure JoinPayload where
  playerId : Option String := none
  playerName : String := ""
  email : Option String := none
  roomCode : String := ""
deriving DecidableEq, Repr

/-- `PlayerManager.addPlayer`: validate the player data, replace any live
connection for the same player id, register the connection and the player
(ready starts false), add both to the room, and broadcast the updated
player list.  `genId` stands for the randomly generated id used when the
payload carries none. -/
def addPlayer (fuel : Nat) (pm : PMState) (clientId : String)
    (pd : JoinPayload) (genId : String) : Except String (PMState × List OutMsg) :=
  let pid := jsOr pd.playerId genId
  if pid == "" || pd.playerName == "" then
    .error "Missing required player data (playerId, playerName)"
  else
    let rm : PMState × List OutMsg :=
      match findClientByPlayerId pm pid with
      | some existingCid => removeClientFuel fuel pm existingCid
      | none => (pm, [])
    let roomCode := optTruthy (some pd.roomCode)
    let pm2 : PMState := { rm.1 with
      clients := mapSet rm.1.clients clientId
        { playerId := some pid, roomCode := roomCode } }
    let newPlayer : PlayerRec :=
      { id := pid, name := pd.playerName, roomCode := roomCode
        ready := false, isActive := true, clientId := some clientId }
    let pm3 : PMState := { pm2 with players := mapSet pm2.players pid newPlayer }
    let pm4 : PMState := match roomCode with
      | some rc =>
          let rooms1 := rmAddClientToRoom pm3.rooms rc clientId
          { pm3 with rooms := rmAddPlayerToRoom rooms1 rc pid true }
      | none => pm3
    .ok (pm4, rm.2 ++ [broadcastPlayerList pm4 roomCode])

/-- The whole coordinator: the `GameManager` and the `PlayerManager`. -/
structure SysState where
  gm : GMState
  pm : PMState
deriving DecidableEq, Repr

/-- An ASCII whitespace character (JavaScript trims a superset). -/
def isWsChar (c : Char) : Bool :=
  c == ' ' || c == '\t' || c == '\n' || c == '\r'

/-- `String.prototype.trim`: drop leading and trailing whitespace. -/
def jsTrim (s : String) : String :=
  String.mk (((s.data.dropWhile isWsChar).reverse.dropWhile isWsChar).reverse)

/-- The room-code test `/^\d{3}$/`: exactly three ASCII digits. -/
def isThreeDigitCode (s : String) : Bool :=
  s.data.length == 3 && s.data.all (fun c => c.isDigit)

/-- `MessageProtocol.handleJoin` together with `handleMessage`'s catch
boundary: a thrown error becomes a single `sendError` envelope and leaves
every map untouched.  Note the untrimmed `roomCode` is what reaches
`addPlayer`, while the trimmed `code` is validated and echoed back. -/
def handleJoinSys (fuel : Nat) (sys : SysState) (clientId : String)
    (payload : JoinPayload) (genId : String) : SysState × List OutMsg :=
  let code := jsTrim payload.roomCode
  if !isThreeDigitCode code then
    (sys, [sendError clientId "Invalid room code. Use a 3-digit code (e.g., 123)."])
  else
    let joinPayload := if truthyStr payload.playerId then payload
      else { payload with playerId := some genId }
    match addPlayer fuel sys.pm clientId joinPayload genId with
    | .error e => (sys, [sendError clientId e])
    | .ok (pm1, outs) =>
        let gm1 := updatePlayers sys.gm (getActivePlayers pm1)
        ({ gm := gm1, pm := pm1 },
          outs ++ [.joinSuccess clientId (jsOr joinPayload.playerId genId) code])

/-- The `chat` / `chat_message` payload. -/
structure ChatPayload where
  playerId : Option String := none
  playerName : Option String := none
  message : String := ""
deriving DecidableEq, Repr

/-- `MessageProtocol.handleChatMessage`: reads the game state (its `_gs`
argument) but performs no phase check; resolves the sender from the
server's player map when the connection is authenticated, otherwise from
the client-supplied payload with `anonymous` / `Anonymous` defaults;
broadcasts a `chat_message`. -/
def handleChatMessage (pm : PMState) (_gs : GameState)
    (clientPlayerId : Option String) (payload : ChatPayload) (now : Nat) :
    List OutMsg :=
  let resolved : String × String :=
    match getPlayerById pm clientPlayerId with
    | some p => (p.id, p.name)
    | none =>
        (jsOr payload.playerId "anonymous", jsOr payload.playerName "Anonymous")
  let broadcastId : Option String :=
    if resolved.1 == "" then clientPlayerId else some resolved.1
  [.chatMessage broadcastId resolved.2 payload.message now]

/-- `MessageProtocol.handleVote` under `handleMessage`'s catch boundary:
an unauthenticated connection or a throw from `GameManager.handleVote`
is surfaced as a `sendError` envelope and the game state is returned
unchanged.  (Success-path progress broadcasts are not modelled here.) -/
def handleVoteMessage (st : GMState) (clientId : String)
    (clientPlayerId : Option String) (targetId : String) (now : Nat) :
    GMState × List OutMsg :=
  match optTruthy clientPlayerId with
  | none => (st, [sendError clientId "Player ID required for voting"])
  | some pid =>
      match handleVote st pid targetId now with
      | .ok st1 => (st1, [])
      | .error e => (st, [sendError clientId e])

/-- `MessageProtocol.handleNewGame`: only from the results phase; on
success transitions the session back to waiting and touches nothing in
the `PlayerManager`. -/
def handleNewGameSys (sys : SysState) (now : Nat) : Except String SysState :=
  if sys.gm.gameState.phase ≠ Phase.results then
    .error "New game can only be started from results phase"
  else
    .ok { sys with gm := transitionPhase sys.gm .waiting {} now }

/-- The inbound message-type catalog of `MessageProtocol.messageTypes`. -/
inductive MsgType where
  | ping
  | pong
  | join
  | leave
  | toggleReady
  | startGame
  | chatMessage
  | chat
  | vote
  | newGame
  | testMessage
  | memoryTest
  | submitAnswer
  | forcePhaseTransition
deriving DecidableEq, Repr

/-- The `requiresAuth` column of `messageTypes`. -/
def requiresAuth : MsgType → Bool
  | .ping => false
  | .pong => false
  | .join => false
  | .leave => true
  | .toggleReady => true
  | .startGame => true
  | .chatMessage => false
  | .chat => false
  | .vote => true
  | .newGame => true
  | .testMessage => false
  | .memoryTest => false
  | .submitAnswer => true
  | .forcePhaseTransition => true

/-- `validateMessage`'s authentication gate:
`if (messageConfig.requiresAuth && !client.playerId) throw`. -/
def authCheckPasses (t : MsgType) (clientPlayerId : Option String) : Bool :=
  !(requiresAuth t && !truthyStr clientPlayerId)

/-! ### Concrete fixtures used by witnesses and counterexamples -/

/-- A joined player. -/
def alice : PlayerRec :=
  { id := "p1", name := "Alice", roomCode := some "123", ready := false
    isActive := true, clientId := some "c1" }

/-- A second joined player. -/
def bob : PlayerRec :=
  { id := "p2", name := "Bob", roomCode := some "123", ready := false
    isActive := true, clientId := some "c2" }

/-- A third joined player. -/
def carol : PlayerRec :=
  { id := "p3", name := "Carol", roomCode := some "123", ready := false
    isActive := true, clientId := some "c3" }

/-- `alice` with her ready flag set. -/
def aliceReady : PlayerRec := { alice with ready := true }

/-- A session sitting in the discussion phase. -/
def stDiscussion : GMState :=
  { gameState :=
      { initialGameState with phase := .discussion, players := [alice, bob] }
    phaseTimer := some .toVoting }

/-- A voting-phase session in which `p1` has already voted. -/
def stVotedOnce : GMState :=
  { gameState :=
      { initialGameState with
          phase := .voting
          players := [alice, bob]
          votes := [{ playerId := "p1", targetId := "p2", timestamp := 5 }] }
    phaseTimer := some .toResults }

/-- A voting-phase session with a single player and no votes yet. -/
def stVoting1 : GMState :=
  { gameState := { initialGameState with phase := .voting, players := [alice] }
    phaseTimer := some .toResults }

/-- The state `handleVote stVoting1 "p1" "p1" 3` produces. -/
def stVoting1After : GMState :=
  transitionPhase
    { gameState := { stVoting1.gameState with
        votes := [{ playerId := "p1", targetId := "p1", timestamp := 3 }] }
      phaseTimer := none } .results {} 3

/-- A `PlayerManager` with one joined client and player. -/
def pmOne : PMState :=
  { clients := [("c1", { playerId := some "p1", roomCode := some "123" })]
    players := [("p1", alice)]
    rooms := [("123", { players := ["p1"], clients := ["c1"], hostId := some "p1" })] }

/-- `pmOne` with the player marked ready. -/
def pmReady : PMState :=
  { clients := [("c1", { playerId := some "p1", roomCode := some "123" })]
    players := [("p1", aliceReady)]
    rooms := [("123", { players := ["p1"], clients := ["c1"], hostId := some "p1" })] }

/-- A coordinator in the results phase whose only player is marked ready. -/
def sysResultsReady : SysState :=
  { gm :=
      { gameState :=
          { initialGameState with
              phase := .results
              players := [aliceReady]
              imposter := some "p1" }
        phaseTimer := some .toWaiting }
    pm := pmReady }

/-- A system with one connected but not-yet-joined client. -/
def sysFresh : SysState :=
  { gm := initGM
    pm := { clients := [("c1", { playerId := none, roomCode := none })]
            players := [], rooms := [] } }

/-- A join payload whose room code carries a trailing space. -/
def trailingSpaceJoin : JoinPayload :=
  { playerId := some "p9", playerName := "Zoe", roomCode := "123 " }

/-- Whether an outbound message is an error envelope. -/
def isErrorMsg : OutMsg → Bool
  | .errorMsg _ _ _ => true
  | _ => false

/-- Modelled from the spec: "the plurality target is the one with the
strictly highest count (first-seen wins ties)" — the same strict-max scan
as `calculateVoteResults`, but over the tally in pure first-seen
(insertion) order with no array-index reordering.  Used only to compare
the code's tie-break against the spec's words. -/
def specFirstSeenPlurality (votes : List Vote) : Option String :=
  (pickMostVoted (tallyVotes votes)).1

/-- Tie-break counterexample votes: one vote for target `"1"`, then one
for target `"0"` — a tie between two array-index-like target ids. -/
def tieVotes : List Vote :=
  [{ playerId := "a", targetId := "1", timestamp := 0 },
   { playerId := "b", targetId := "0", timestamp := 1 }]

/-- The vote set of the repo's own `calculateVoteResults` unit test. -/
def demoVotes : List Vote :=
  [{ playerId := "player1", targetId := "player2", timestamp := 0 },
   { playerId := "player3", targetId := "player2", timestamp := 1 },
   { playerId := "player4", targetId := "player1", timestamp := 2 }]

/-- The voter ids of the collected votes. -/
def voterIds (st : GMState) : List String :=
  st.gameState.votes.map (fun v => v.playerId)

/-- Vote-bound invariant: the vote count never exceeds the player count,
and, while voting is open, is zero or strictly below the player count. -/
def boundInv (st : GMState) : Prop :=
  st.gameState.votes.length ≤ st.gameState.players.length ∧
  (st.gameState.phase = Phase.voting →
    st.gameState.votes.length = 0 ∨
    st.gameState.votes.length < st.gameState.players.length)

/-- Counterexample trace for the vote bound: three players join, the
game starts, voting opens, two votes arrive, then two players leave
mid-round (`updatePlayers` shrinks the list). -/
def shrinkTrace : List Ev :=
  [.updatePlayersEv [alice, bob, carol], .startGameEv 0 0,
   .forcePhaseEv .voting 1, .voteEv "p1" "p3" 2, .voteEv "p2" "p3" 3,
   .updatePlayersEv [carol]]

/-- A non-shrinking trace used as a witness: two players join, the game
starts, voting opens, one vote arrives. -/
def growTrace : List Ev :=
  [.updatePlayersEv [alice, bob], .startGameEv 0 0,
   .forcePhaseEv .voting 1, .voteEv "p1" "p2" 2]

/-- Imposter-leak counterexample trace: two players join, the game
starts (imposter `p1`), then the admin path forces results and then
voting — the stale results payload survives into the voting phase. -/
def leakTrace : List Ev :=
  [.updatePlayersEv [alice, bob], .startGameEv 0 0,
   .forcePhaseEv .results 1, .forcePhaseEv .voting 2]

/-- Results-gating invariant: a results payload exists only in the
results phase. -/
def resultsOnlyInResults (st : GMState) : Prop :=
  ∀ r, st.gameState.results = some r → st.gameState.phase = Phase.results

/-- Timer sanity: the discussion timer is armed only in the discussion
phase (every `transitionPhase` re-arms the timer for its target). -/
def timerInv (st : GMState) : Prop :=
  st.phaseTimer = some TimerKind.toVoting →
    st.gameState.phase = Phase.discussion

/-- Waiting sanity: in the waiting phase there is never a results
payload (every entry into waiting clears it). -/
def waitingClear (st : GMState) : Prop :=
  st.gameState.phase = Phase.waiting → st.gameState.results = none

/-- A force-free trace ending in the question phase: two players join
and the game starts. -/
def questionTrace : List Ev :=
  [.updatePlayersEv [alice, bob], .startGameEv 0 0]

/-- C3: `handleVote` rejects a vote outside the voting phase, and a
duplicate vote inside it, with the thrown message surfaced by the
dispatch boundary as an error envelope to the offending connection and
the game state returned unchanged. -/
theorem handleVote_error_paths (st : GMState) (clientId pid targetId : String)
    (now : Nat) (hpid : pid ≠ "") :
    (st.gameState.phase ≠ Phase.voting →
      handleVoteMessage st clientId (some pid) targetId now =
        (st, [sendError clientId "Voting is not currently active"])) ∧
    (st.gameState.phase = Phase.voting →
      (st.gameState.votes.find? (fun v => v.playerId == pid)).isSome →
      handleVoteMessage st clientId (some pid) targetId now =
        (st, [sendError clientId "Player has already voted"])) := by
  have hb : (pid == "") = false := by
    simpa using hpid
  constructor
  · intro hph
    simp [handleVoteMessage, optTruthy, truthyStr, hb, handleVote, hph]
  · intro hph hdup
    simp [handleVoteMessage, optTruthy, truthyStr, hb, handleVote, hph, hdup]

/-- Witness for C3 at concrete states: a vote during discussion and a
repeated vote during voting both bounce with the right envelope. -/
theorem handleVote_error_paths_witness :
    handleVoteMessage stDiscussion "c1" (some "p1") "p2" 7 =
      (stDiscussion, [sendError "c1" "Voting is not currently active"]) ∧
    handleVoteMessage stVotedOnce "c1" (some "p1") "p2" 7 =
      (stVotedOnce, [sendError "c1" "Player has already voted"]) :=
  ⟨(handleVote_error_paths stDiscussion "c1" "p1" "p2" 7 (by decide)).1 (by decide),
   (handleVote_error_paths stVotedOnce "c1" "p1" "p2" 7 (by decide)).2
     (by decide) (by decide)⟩

/-- C4: whenever a successful `handleVote` leaves the collected-vote
count at or above the player count, that same call has cancelled the
voting timeout and transitioned the session to results (arming the
results-to-waiting delay in its place). -/
theorem handleVote_completes_voting (st st2 : GMState) (pid tid : String)
    (now : Nat) (hok : handleVote st pid tid now = Except.ok st2)
    (hall : st2.gameState.players.length ≤ st2.gameState.votes.length) :
    st2.gameState.phase = Phase.results ∧
    st2.phaseTimer = some TimerKind.toWaiting := by
  simp only [handleVote] at hok
  split at hok
  · exact absurd hok (by simp)
  · split at hok
    · exact absurd hok (by simp)
    · split at hok
      · cases hok
        exact ⟨rfl, rfl⟩
      · rename_i hlen
        cases hok
        simp at hall hlen
        omega

/-- Witness for C4: the single player's vote completes voting. -/
theorem handleVote_completes_voting_witness :
    stVoting1After.gameState.phase = Phase.results ∧
    stVoting1After.phaseTimer = some TimerKind.toWaiting :=
  handleVote_completes_voting stVoting1 stVoting1After "p1" "p1" 3
    (by rfl) (by decide)

/-- C6 (amended): the chat handler performs no phase check at all — in
every phase, for every sender, it broadcasts exactly one `chat_message`
and never produces an error. -/
theorem chat_not_phase_gated (pm : PMState) (gs : GameState)
    (clientPlayerId : Option String) (payload : ChatPayload) (now : Nat) :
    ∃ pid name, handleChatMessage pm gs clientPlayerId payload now =
      [OutMsg.chatMessage pid name payload.message now] :=
  ⟨_, _, rfl⟩

/-- C6 counterexample: a chat sent in the waiting phase (not discussion)
is broadcast, not rejected with an error. -/
theorem chat_in_waiting_broadcasts :
    initialGameState.phase = Phase.waiting ∧
    handleChatMessage pmOne initialGameState (some "p1")
        { message := "hello" } 5 =
      [OutMsg.chatMessage (some "p1") "Alice" "hello" 5] := by
  decide

/-- C7: a `new_game` return to the waiting phase succeeds from results,
sets the phase to waiting, and leaves the player map — including the
still-set ready flag — completely untouched; no code path clears ready
flags on re-entry to waiting. -/
theorem ready_flag_survives_waiting :
    sysResultsReady.pm = pmReady ∧
    aliceReady.ready = true ∧
    (handleNewGameSys sysResultsReady 9).toOption.map (fun s => s.pm) =
      some pmReady ∧
    (handleNewGameSys sysResultsReady 9).toOption.map
        (fun s => s.gm.gameState.phase) = some Phase.waiting ∧
    (handleNewGameSys sysResultsReady 9).toOption.map
        (fun s => (getPlayerById s.pm (some "p1")).map (fun p => p.ready)) =
      some (some true) := by
  decide

/-- C10: the `chat` and `chat_message` inbound types require no joined
player, and for a connection with no joined player the broadcast sender
identity is taken from the client-supplied payload, defaulting to
`anonymous` / `Anonymous` — it is not server-verified. -/
theorem chat_sender_identity_unverified :
    requiresAuth MsgType.chat = false ∧
    requiresAuth MsgType.chatMessage = false ∧
    authCheckPasses MsgType.chat none = true ∧
    authCheckPasses MsgType.chatMessage none = true ∧
    ∀ (pm : PMState) (gs : GameState) (payload : ChatPayload) (now : Nat),
      handleChatMessage pm gs none payload now =
        [OutMsg.chatMessage (some (jsOr payload.playerId "anonymous"))
          (jsOr payload.playerName "Anonymous") payload.message now] := by
  refine ⟨rfl, rfl, rfl, rfl, ?_⟩
  intro pm gs payload now
  have h : (jsOr payload.playerId "anonymous" == "") = false := by
    unfold jsOr optTruthy truthyStr
    cases hp : payload.playerId with
    | none => rfl
    | some s =>
        by_cases hs : (s == "") = true
        · simp [hs]
        · simp only [Bool.not_eq_true] at hs
          simp [hs]
  simp [handleChatMessage, getPlayerById, h]

/-- C8 (amended): a join whose room code is, after trimming whitespace,
not exactly 3 ASCII digits is rejected with the invalid-room-code error
envelope to the originating connection, and the whole coordinator state
(player map, connection map, rooms, game state) is unchanged. -/
theorem join_invalid_code_rejected (fuel : Nat) (sys : SysState)
    (clientId : String) (payload : JoinPayload) (genId : String)
    (h : isThreeDigitCode (jsTrim payload.roomCode) = false) :
    handleJoinSys fuel sys clientId payload genId =
      (sys,
        [sendError clientId "Invalid room code. Use a 3-digit code (e.g., 123)."]) := by
  simp [handleJoinSys, h]

/-- Witness for C8 at the spec's own scenario, `roomCode = "12"`. -/
theorem join_invalid_code_rejected_witness :
    handleJoinSys 4 sysFresh "c1" { playerName := "Zoe", roomCode := "12" } "g1" =
      (sysFresh,
        [sendError "c1" "Invalid room code. Use a 3-digit code (e.g., 123)."]) :=
  join_invalid_code_rejected 4 sysFresh "c1"
    { playerName := "Zoe", roomCode := "12" } "g1" (by decide)

/-- C8 counterexample: `"123 "` (trailing space) is not exactly 3 ASCII
digits, yet the join is accepted — no error envelope is sent and player
state is created. -/
theorem join_trailing_space_accepted :
    isThreeDigitCode "123 " = false ∧
    ((handleJoinSys 4 sysFresh "c1" trailingSpaceJoin "g1").2.all
      (fun m => !isErrorMsg m)) = true ∧
    (mapGet (handleJoinSys 4 sysFresh "c1" trailingSpaceJoin "g1").1.pm.players
      "p9").isSome = true := by
  decide

/-- Deleting a key removes it from a string-keyed map. -/
theorem mapGet_mapDel (m : List (String × α)) (k : String) :
    mapGet (mapDel m k) k = none := by
  have hfind : (mapDel m k).find? (fun e => e.1 == k) = none := by
    rw [List.find?_eq_none]
    intro x hx
    have hmem := List.mem_filter.mp hx
    simpa using hmem.2
  simp [mapGet, hfind]

/-- After `removePlayer`, the player id is gone from the player map
(whether or not it was present, and whatever the nested
`removeClient`/`removePlayer` recursion did first). -/
theorem mapGet_after_removePlayer (fuel : Nat) (pm : PMState) (pid : String) :
    mapGet ((removePlayerFuel (Nat.succ fuel) pm pid).1).players pid = none := by
  simp only [removePlayerFuel]
  cases h : mapGet pm.players pid with
  | none => simp [h]
  | some player =>
      simp only [h]
      cases optTruthy player.roomCode with
      | none => simp [mapGet_mapDel]
      | some rc => simp [mapGet_mapDel]

/-- C9: `removePlayer` is idempotent — after one `removePlayer(pid)` call,
a second call with the same id (at any recursion fuel, in particular the
real behaviour) changes nothing and emits no broadcast at all: the second
call short-circuits on the missing player. -/
theorem removePlayer_idempotent (fuel1 fuel2 : Nat) (pm : PMState)
    (pid : String) :
    removePlayerFuel fuel2 ((removePlayerFuel (Nat.succ fuel1) pm pid).1) pid =
      (((removePlayerFuel (Nat.succ fuel1) pm pid).1), []) := by
  cases fuel2 with
  | zero => rfl
  | succ f =>
      generalize hq : (removePlayerFuel (Nat.succ fuel1) pm pid).1 = pm1
      have h : mapGet pm1.players pid = none := by
        rw [← hq]
        exact mapGet_after_removePlayer fuel1 pm pid
      simp only [removePlayerFuel, h]

/-- `jsSet` only ever inserts the pair `(k, v)`. -/
theorem mem_jsSet (o : JsNumObj) (k : String) (v : Nat) (e : String × Nat)
    (he : e ∈ jsSet o k v) : e = (k, v) ∨ e ∈ o := by
  unfold jsSet at he
  split at he
  · rcases List.mem_map.mp he with ⟨a, ha, hae⟩
    by_cases h : (a.1 == k) = true
    · simp [h] at hae
      exact Or.inl hae.symm
    · simp only [Bool.not_eq_true] at h
      simp [h] at hae
      exact Or.inr (hae ▸ ha)
  · rcases List.mem_append.mp he with h | h
    · exact Or.inr h
    · simp at h
      exact Or.inl h

/-- Setting a key walks past a head with a different key. -/
theorem jsSet_cons_ne (e : String × Nat) (rest : JsNumObj) (k : String)
    (v : Nat) (h : (e.1 == k) = false) :
    jsSet (e :: rest) k v = e :: jsSet rest k v := by
  have hfind : List.find? (fun x => x.1 == k) (e :: rest)
      = List.find? (fun x => x.1 == k) rest := by
    simp only [List.find?]
    rw [h]
  by_cases hr : (List.find? (fun x => x.1 == k) rest).isSome = true
  · simp only [jsSet, jsHas, hfind, hr, if_true, List.map_cons, h]
    simp
  · simp only [Bool.not_eq_true] at hr
    simp only [jsSet, jsHas, hfind, hr, Bool.false_eq_true, if_false,
      List.cons_append]

/-- After `jsSet o k v`, looking up `k` finds exactly `(k, v)`. -/
theorem find?_jsSet_self (o : JsNumObj) (k : String) (v : Nat) :
    (jsSet o k v).find? (fun x => x.1 == k) = some (k, v) := by
  induction o with
  | nil => simp [jsSet, jsHas, List.find?]
  | cons e rest ih =>
      by_cases he : (e.1 == k) = true
      · have hhas : jsHas (e :: rest) k = true := by
          simp [jsHas, List.find?, he]
        simp only [jsSet, hhas, if_true, List.map_cons, he, List.find?]
        simp
      · simp only [Bool.not_eq_true] at he
        rw [jsSet_cons_ne e rest k v he]
        simp only [List.find?, he]
        exact ih

/-- Looking up a different key is unaffected by mapping the `jsSet`
replacement function over a list. -/
theorem find?_map_setfn (l : JsNumObj) (k : String) (v : Nat) (t : String)
    (hkt : (k == t) = false) :
    (l.map (fun x => if x.1 == k then (k, v) else x)).find? (fun x => x.1 == t)
      = l.find? (fun x => x.1 == t) := by
  induction l with
  | nil => rfl
  | cons a rest ih =>
      by_cases ha : (a.1 == k) = true
      · have hat : (a.1 == t) = false := by
          have : a.1 = k := by simpa using ha
          rw [this]
          exact hkt
        simp only [List.map_cons, ha, if_true, List.find?, hkt, hat]
        exact ih
      · simp only [Bool.not_eq_true] at ha
        simp only [List.map_cons, ha, Bool.false_eq_true, if_false, List.find?]
        by_cases hat : (a.1 == t) = true
        · simp [hat]
        · simp only [Bool.not_eq_true] at hat
          rw [hat]
          exact ih

/-- Appending the fresh pair does not affect lookups of a different key. -/
theorem find?_append_singleton_ne (l : JsNumObj) (k : String) (v : Nat)
    (t : String) (hkt : (k == t) = false) :
    (l ++ [(k, v)]).find? (fun x => x.1 == t) = l.find? (fun x => x.1 == t) := by
  induction l with
  | nil => simp [List.find?, hkt]
  | cons a rest ih =>
      simp only [List.cons_append, List.find?]
      by_cases hat : (a.1 == t) = true
      · simp [hat]
      · simp only [Bool.not_eq_true] at hat
        rw [hat]
        exact ih

/-- `jsSet` leaves lookups of other keys unchanged. -/
theorem find?_jsSet_ne (o : JsNumObj) (k : String) (v : Nat) (t : String)
    (hkt : (k == t) = false) :
    (jsSet o k v).find? (fun x => x.1 == t) = o.find? (fun x => x.1 == t) := by
  unfold jsSet
  split
  · exact find?_map_setfn o k v t hkt
  · exact find?_append_singleton_ne o k v t hkt

/-- Reading back the key just written. -/
theorem jsGet_jsSet_self (o : JsNumObj) (k : String) (v : Nat) :
    jsGet (jsSet o k v) k = v := by
  simp [jsGet, find?_jsSet_self]

/-- Reading a different key after a write. -/
theorem jsGet_jsSet_ne (o : JsNumObj) (k : String) (v : Nat) (t : String)
    (hkt : (k == t) = false) :
    jsGet (jsSet o k v) t = jsGet o t := by
  simp [jsGet, find?_jsSet_ne o k v t hkt]

/-- The tally fold counts, per target, the votes it has seen. -/
theorem jsGet_tally_fold (votes : List Vote) (o : JsNumObj) (t : String) :
    jsGet (votes.foldl
        (fun o v => jsSet o v.targetId (jsGet o v.targetId + 1)) o) t
      = jsGet o t + (votes.filter (fun v => v.targetId == t)).length := by
  induction votes generalizing o with
  | nil => simp
  | cons v rest ih =>
      rw [List.foldl_cons, ih]
      by_cases h : (v.targetId == t) = true
      · have ht : v.targetId = t := by simpa using h
        subst ht
        rw [jsGet_jsSet_self]
        simp [List.filter_cons, h]
        omega
      · simp only [Bool.not_eq_true] at h
        rw [jsGet_jsSet_ne o v.targetId _ t h]
        simp [List.filter_cons, h]

/-- C2 tally correctness: each target's count is its number of votes. -/
theorem jsGet_tally (votes : List Vote) (t : String) :
    jsGet (tallyVotes votes) t
      = (votes.filter (fun v => v.targetId == t)).length := by
  have h := jsGet_tally_fold votes [] t
  simpa [tallyVotes, jsGet] using h

/-- Every count in the tally is at least one. -/
theorem tally_counts_pos_aux (votes : List Vote) (o : JsNumObj)
    (ho : ∀ e ∈ o, 1 ≤ e.2) :
    ∀ e ∈ votes.foldl
        (fun o v => jsSet o v.targetId (jsGet o v.targetId + 1)) o, 1 ≤ e.2 := by
  induction votes generalizing o with
  | nil => exact ho
  | cons v rest ih =>
      rw [List.foldl_cons]
      refine ih _ ?_
      intro e he
      rcases mem_jsSet _ _ _ _ he with rfl | he'
      · omega
      · exact ho e he'

/-- Every count in the tally is at least one. -/
theorem tally_counts_pos (votes : List Vote) :
    ∀ e ∈ tallyVotes votes, 1 ≤ e.2 :=
  tally_counts_pos_aux votes [] (by simp)

/-- `jsSet` never produces the empty object. -/
theorem jsSet_ne_nil (o : JsNumObj) (k : String) (v : Nat) :
    jsSet o k v ≠ [] := by
  unfold jsSet
  split
  · rename_i hhas
    cases o with
    | nil => simp [jsHas, List.find?] at hhas
    | cons e rest => simp
  · simp

/-- A nonempty vote list tallies to a nonempty object. -/
theorem tally_ne_nil (votes : List Vote) (h : votes ≠ []) :
    tallyVotes votes ≠ [] := by
  have haux : ∀ (l : List Vote) (o : JsNumObj), o ≠ [] →
      l.foldl (fun o v => jsSet o v.targetId (jsGet o v.targetId + 1)) o ≠ [] := by
    intro l
    induction l with
    | nil => exact fun o ho => ho
    | cons v rest ih =>
        intro o ho
        rw [List.foldl_cons]
        exact ih _ (jsSet_ne_nil _ _ _)
  cases votes with
  | nil => exact absurd rfl h
  | cons v rest =>
      unfold tallyVotes
      rw [List.foldl_cons]
      exact haux rest _ (jsSet_ne_nil _ _ _)

/-- Every key in the tally is the target of some vote. -/
theorem tally_keys_aux (votes : List Vote) (o : JsNumObj)
    (hv : ∀ v ∈ votes, isArrayIndex v.targetId = false)
    (ho : ∀ e ∈ o, isArrayIndex e.1 = false) :
    ∀ e ∈ votes.foldl
        (fun o v => jsSet o v.targetId (jsGet o v.targetId + 1)) o,
      isArrayIndex e.1 = false := by
  induction votes generalizing o with
  | nil => exact ho
  | cons v rest ih =>
      rw [List.foldl_cons]
      refine ih _ (fun w hw => hv w (List.mem_cons_of_mem v hw)) ?_
      intro e he
      rcases mem_jsSet _ _ _ _ he with rfl | he'
      · exact hv v (List.mem_cons_self v rest)
      · exact ho e he'

/-- Membership through the index insertion sort. -/
theorem mem_insertByIdx (x e : String × Nat) (l : JsNumObj) :
    x ∈ insertByIdx e l ↔ x = e ∨ x ∈ l := by
  induction l with
  | nil => simp [insertByIdx]
  | cons f rest ih =>
      unfold insertByIdx
      split
      · simp [List.mem_cons]
      · simp only [List.mem_cons, ih]
        tauto

/-- The index sort is a permutation up to membership. -/
theorem mem_sortByIdx (x : String × Nat) (l : JsNumObj) :
    x ∈ sortByIdx l ↔ x ∈ l := by
  induction l with
  | nil => simp [sortByIdx]
  | cons e rest ih =>
      show x ∈ insertByIdx e (sortByIdx rest) ↔ _
      rw [mem_insertByIdx, ih]
      simp [List.mem_cons]

/-- `jsEntries` preserves membership. -/
theorem mem_jsEntries (o : JsNumObj) (e : String × Nat) :
    e ∈ jsEntries o ↔ e ∈ o := by
  unfold jsEntries
  rw [List.mem_append, mem_sortByIdx]
  simp only [List.mem_filter]
  by_cases h : isArrayIndex e.1 = true <;> simp [h]

/-- With no array-index keys, `Object.entries` is plain insertion order. -/
theorem jsEntries_eq_self (o : JsNumObj)
    (h : ∀ e ∈ o, isArrayIndex e.1 = false) : jsEntries o = o := by
  unfold jsEntries
  have h1 : o.filter (fun e => isArrayIndex e.1) = [] := by
    rw [List.filter_eq_nil_iff]
    intro a ha
    simp [h a ha]
  have h2 : o.filter (fun e => !isArrayIndex e.1) = o := by
    rw [List.filter_eq_self]
    intro a ha
    simp [h a ha]
  rw [h1, h2]
  rfl

/-- Folding the strict-max scan over one more entry. -/
theorem pickMostVoted_append (l : JsNumObj) (e : String × Nat) :
    pickMostVoted (l ++ [e]) =
      if (pickMostVoted l).2 < e.2 then (some e.1, e.2) else pickMostVoted l := by
  unfold pickMostVoted
  rw [List.foldl_append]
  rfl

/-- The strict-max scan selects the first entry carrying the maximal
count: everything before it is strictly smaller, everything after is no
larger; when every count is zero nothing is selected. -/
theorem pickMostVoted_spec (l : JsNumObj) :
    (pickMostVoted l = (none, 0) ∧ ∀ e ∈ l, e.2 = 0) ∨
    (∃ m cm l1 l2, pickMostVoted l = (some m, cm) ∧
      l = l1 ++ (m, cm) :: l2 ∧
      (∀ e ∈ l1, e.2 < cm) ∧ (∀ e ∈ l2, e.2 ≤ cm)) := by
  induction l using List.reverseRecOn with
  | nil => exact Or.inl ⟨rfl, by simp⟩
  | append_singleton l e ih =>
      rw [pickMostVoted_append]
      rcases ih with ⟨hpick, hall⟩ | ⟨m, cm, l1, l2, hpick, heq, h1, h2⟩
      · rw [hpick]
        by_cases he : (0 : Nat) < e.2
        · right
          refine ⟨e.1, e.2, l, [], ?_, by simp, ?_, by simp⟩
          · simp [he]
          · intro x hx
            rw [hall x hx]
            exact he
        · left
          have he0 : e.2 = 0 := by omega
          constructor
          · simp [he]
          · intro x hx
            rcases List.mem_append.mp hx with h | h
            · exact hall x h
            · simp at h
              rw [h, he0]
      · rw [hpick]
        by_cases hc : cm < e.2
        · right
          refine ⟨e.1, e.2, l, [], ?_, by simp, ?_, by simp⟩
          · simp [hc]
          · intro x hx
            rw [heq] at hx
            rcases List.mem_append.mp hx with h | h
            · exact lt_trans (h1 x h) hc
            · rcases List.mem_cons.mp h with rfl | h
              · exact hc
              · exact lt_of_le_of_lt (h2 x h) hc
        · right
          refine ⟨m, cm, l1, l2 ++ [e], ?_, ?_, h1, ?_⟩
          · simp [hc]
          · rw [heq]
            simp
          · intro x hx
            rcases List.mem_append.mp hx with h | h
            · exact h2 x h
            · simp at h
              rw [h]
              omega

/-- C2 (amended): `calculateVoteResults` tallies one count per target
(each equal to that target's number of votes); the plurality target is
the first target, in JavaScript object key enumeration order (array-index
keys ascending first, then first-seen order), whose count is maximal —
strictly above everything enumerated before it and no smaller than
everything after; it is `null` exactly when there are no votes; the
outcome flag equals (plurality target == imposter id); and the payload
carries counts, plurality target, imposter id, outcome flag and total
vote count.  When no target id is array-index-like, the tie-break
coincides with the spec's first-seen order. -/
theorem calculateVoteResults_spec (votes : List Vote) (imposter : Option String) :
    (calculateVoteResults votes imposter).totalVotes = votes.length ∧
    (calculateVoteResults votes imposter).imposter = imposter ∧
    (calculateVoteResults votes imposter).playersWon =
      ((calculateVoteResults votes imposter).mostVotedPlayer == imposter) ∧
    (∀ t, jsGet (calculateVoteResults votes imposter).voteCounts t =
      (votes.filter (fun v => v.targetId == t)).length) ∧
    ((calculateVoteResults votes imposter).mostVotedPlayer = none ↔ votes = []) ∧
    (∀ m, (calculateVoteResults votes imposter).mostVotedPlayer = some m →
      ∃ cm l1 l2,
        jsEntries (calculateVoteResults votes imposter).voteCounts =
          l1 ++ (m, cm) :: l2 ∧
        (∀ e ∈ l1, e.2 < cm) ∧ (∀ e ∈ l2, e.2 ≤ cm)) ∧
    ((∀ v ∈ votes, isArrayIndex v.targetId = false) →
      (calculateVoteResults votes imposter).mostVotedPlayer =
        specFirstSeenPlurality votes) := by
  have hvc : (calculateVoteResults votes imposter).voteCounts
      = tallyVotes votes := rfl
  have hmv : (calculateVoteResults votes imposter).mostVotedPlayer
      = (pickMostVoted (jsEntries (tallyVotes votes))).1 := rfl
  refine ⟨rfl, rfl, rfl, ?_, ?_, ?_, ?_⟩
  · intro t
    rw [hvc, jsGet_tally]
  · rw [hmv]
    constructor
    · intro hnone
      by_contra hne
      have htally := tally_ne_nil votes hne
      rcases List.exists_mem_of_ne_nil _ htally with ⟨e, he⟩
      have hee : e ∈ jsEntries (tallyVotes votes) := (mem_jsEntries _ e).mpr he
      rcases pickMostVoted_spec (jsEntries (tallyVotes votes)) with
        ⟨hpick, hall⟩ | ⟨m, cm, l1, l2, hpick, heq, h1, h2⟩
      · have h0 := hall e hee
        have h1' := tally_counts_pos votes e he
        omega
      · rw [hpick] at hnone
        simp at hnone
    · intro hnil
      subst hnil
      rfl
  · intro m hm
    rw [hmv] at hm
    rw [hvc]
    rcases pickMostVoted_spec (jsEntries (tallyVotes votes)) with
      ⟨hpick, hall⟩ | ⟨m2, cm, l1, l2, hpick, heq, h1, h2⟩
    · rw [hpick] at hm
      simp at hm
    · rw [hpick] at hm
      simp at hm
      subst hm
      exact ⟨cm, l1, l2, heq, h1, h2⟩
  · intro hnoidx
    rw [hmv]
    have hk := tally_keys_aux votes [] hnoidx (by simp)
    rw [jsEntries_eq_self (tallyVotes votes) hk]
    rfl

/-- C2 counterexample to the claimed first-seen tie-break: with a tie
between the array-index-like targets `"1"` (voted first) and `"0"`,
`Object.entries` enumerates `"0"` first and the code picks `"0"`, while
the spec's first-seen rule picks `"1"`. -/
theorem calculateVoteResults_tiebreak_counterexample :
    (calculateVoteResults tieVotes none).mostVotedPlayer = some "0" ∧
    specFirstSeenPlurality tieVotes = some "1" ∧
    (calculateVoteResults tieVotes none).mostVotedPlayer ≠
      specFirstSeenPlurality tieVotes := by
  decide

/-- Witness for C2 on the repo's own unit-test votes (no array-index
target ids): the plurality decomposition at `player2`, and agreement
with the spec's first-seen rule. -/
theorem calculateVoteResults_spec_witness :
    (∃ cm l1 l2,
      jsEntries (calculateVoteResults demoVotes (some "player2")).voteCounts =
        l1 ++ ("player2", cm) :: l2 ∧
      (∀ e ∈ l1, e.2 < cm) ∧ (∀ e ∈ l2, e.2 ≤ cm)) ∧
    (calculateVoteResults demoVotes (some "player2")).mostVotedPlayer =
      specFirstSeenPlurality demoVotes :=
  ⟨(calculateVoteResults_spec demoVotes
      (some "player2")).2.2.2.2.2.1 "player2" (by decide),
   (calculateVoteResults_spec demoVotes
      (some "player2")).2.2.2.2.2.2 (by decide)⟩

/-- A phase transition lands in its target phase. -/
theorem tp_phase (st : GMState) (p : Phase) (d : TransitionData) (now : Nat) :
    (transitionPhase st p d now).gameState.phase = p := by
  cases p
  · rfl
  · simp only [transitionPhase, handleQuestionPhase]
    split_ifs <;> rfl
  · rfl
  · rfl
  · rfl

/-- No phase transition touches the player list. -/
theorem tp_players (st : GMState) (p : Phase) (d : TransitionData) (now : Nat) :
    (transitionPhase st p d now).gameState.players = st.gameState.players := by
  cases p
  · rfl
  · simp only [transitionPhase, handleQuestionPhase]
    split_ifs <;> rfl
  · rfl
  · rfl
  · rfl

/-- Votes across a phase transition: cleared on entry to voting or
waiting, preserved otherwise. -/
theorem tp_votes (st : GMState) (p : Phase) (d : TransitionData) (now : Nat) :
    (transitionPhase st p d now).gameState.votes =
      (if p = Phase.voting ∨ p = Phase.waiting then []
       else st.gameState.votes) := by
  cases p
  · rfl
  · simp only [transitionPhase, handleQuestionPhase]
    split_ifs <;> simp_all
  · simp [transitionPhase]
  · rfl
  · rfl

/-- Results payload across a phase transition: cleared on entry to
waiting, computed on entry to results, preserved otherwise. -/
theorem tp_results (st : GMState) (p : Phase) (d : TransitionData) (now : Nat) :
    (transitionPhase st p d now).gameState.results =
      (if p = Phase.waiting then none
       else if p = Phase.results then
         some (calculateVoteResults st.gameState.votes st.gameState.imposter)
       else st.gameState.results) := by
  cases p
  · rfl
  · simp only [transitionPhase, handleQuestionPhase]
    split_ifs <;> simp_all
  · simp [transitionPhase]
  · rfl
  · rfl

/-- The timer armed by a phase transition is a function of the target. -/
theorem tp_timer (st : GMState) (p : Phase) (d : TransitionData) (now : Nat) :
    (transitionPhase st p d now).phaseTimer =
      (match p with
       | Phase.question => none
       | Phase.discussion => some TimerKind.toVoting
       | Phase.voting => some TimerKind.toResults
       | Phase.results => some TimerKind.toWaiting
       | Phase.waiting => none) := by
  cases p <;> rfl

/-- Anatomy of a successful `handleVote`: the phase was voting, the voter
was fresh, the vote got appended, players are untouched, and either the
session stayed in voting (strictly fewer votes than players, timer and
results unchanged) or it completed into results. -/
theorem handleVote_ok_cases (st : GMState) (pid tid : String) (now : Nat)
    (st2 : GMState) (hok : handleVote st pid tid now = Except.ok st2) :
    st.gameState.phase = Phase.voting ∧
    st.gameState.votes.find? (fun v => v.playerId == pid) = none ∧
    st2.gameState.votes = st.gameState.votes ++
      [{ playerId := pid, targetId := tid, timestamp := now }] ∧
    st2.gameState.players = st.gameState.players ∧
    ((st2.gameState.phase = Phase.voting ∧ st2.phaseTimer = st.phaseTimer ∧
        st2.gameState.votes.length < st2.gameState.players.length ∧
        st2.gameState.results = st.gameState.results) ∨
      (st2.gameState.phase = Phase.results ∧
        st2.phaseTimer = some TimerKind.toWaiting ∧
        st2.gameState.players.length ≤ st2.gameState.votes.length)) := by
  simp only [handleVote] at hok
  split at hok
  · exact absurd hok (by simp)
  · rename_i hph
    rw [not_not] at hph
    split at hok
    · exact absurd hok (by simp)
    · rename_i hdup
      split at hok
      · rename_i hlen
        cases hok
        refine ⟨hph, by simpa using hdup, ?_, ?_,
          Or.inr ⟨tp_phase _ _ _ _, by rw [tp_timer], ?_⟩⟩
        · rw [tp_votes]
          simp
        · rw [tp_players]
        · rw [tp_votes, tp_players]
          simpa using hlen
      · rename_i hlen
        cases hok
        refine ⟨hph, by simpa using hdup, rfl, rfl, Or.inl ⟨hph, rfl, ?_, rfl⟩⟩
        simpa using hlen

/-- One coordinator step never introduces a duplicate voter id. -/
theorem step_nodup (st : GMState) (e : Ev) (h : (voterIds st).Nodup) :
    (voterIds (step st e)).Nodup := by
  have htp : ∀ (p : Phase) (d : TransitionData) (now : Nat),
      (voterIds (transitionPhase st p d now)).Nodup := by
    intro p d now
    unfold voterIds
    rw [tp_votes]
    split
    · simp
    · exact h
  cases e with
  | updatePlayersEv ps => exact h
  | startGameEv i now =>
      simp only [step]
      split
      · split
        · exact htp _ _ _
        · exact h
      · exact h
  | voteEv voter target now =>
      simp only [step]
      split
      · cases hv : handleVote st voter target now with
        | error msg => exact h
        | ok st1 =>
            rcases handleVote_ok_cases st voter target now st1 hv with
              ⟨_, hfind, hvotes, _, _⟩
            have hnotin : voter ∉ st.gameState.votes.map
                (fun v => v.playerId) := by
              intro hmem
              rcases List.mem_map.mp hmem with ⟨v, hvmem, hvp⟩
              have hf := List.find?_eq_none.mp hfind v hvmem
              simp [hvp] at hf
            unfold voterIds
            rw [hvotes, List.map_append]
            rw [List.nodup_append]
            refine ⟨h, by simp, ?_⟩
            intro a ha hb
            simp at hb
            subst hb
            exact hnotin ha
      · exact h
  | newGameEv now =>
      simp only [step]
      split
      · exact htp _ _ _
      · exact h
  | forcePhaseEv p now => exact htp _ _ _
  | timerFireEv now =>
      simp only [step, fireTimer]
      split
      · exact h
      · exact htp _ _ _
      · exact htp _ _ _
      · exact htp _ _ _

/-- One step preserves the vote bound, provided the step does not shrink
the player list. -/
theorem step_bound (st : GMState) (e : Ev) (hb : boundInv st)
    (he : evKeepsBound st e = true) : boundInv (step st e) := by
  have htp : ∀ (p : Phase) (d : TransitionData) (now : Nat),
      boundInv (transitionPhase st p d now) := by
    intro p d now
    constructor
    · rw [tp_votes, tp_players]
      split
      · simp
      · exact hb.1
    · intro hph
      rw [tp_phase] at hph
      subst hph
      rw [tp_votes, tp_players]
      simp
  cases e with
  | updatePlayersEv ps =>
      have hle : st.gameState.players.length ≤ ps.length :=
        of_decide_eq_true he
      constructor
      · exact le_trans hb.1 hle
      · intro hph
        rcases hb.2 hph with h0 | hlt
        · exact Or.inl h0
        · exact Or.inr (lt_of_lt_of_le hlt hle)
  | startGameEv i now =>
      simp only [step]
      split
      · split
        · exact htp _ _ _
        · exact hb
      · exact hb
  | voteEv voter target now =>
      simp only [step]
      split
      · rename_i hguard
        have hpos : 0 < st.gameState.players.length := by
          rcases List.any_eq_true.mp hguard with ⟨p, hp, _⟩
          exact List.length_pos.mpr (List.ne_nil_of_mem hp)
        cases hv : handleVote st voter target now with
        | error msg => exact hb
        | ok st1 =>
            rcases handleVote_ok_cases st voter target now st1 hv with
              ⟨hph, _, hvotes, hplayers, hcase⟩
            rcases hcase with ⟨hph1, _, hlt, _⟩ | ⟨hph1, _, _⟩
            · exact ⟨le_of_lt hlt, fun _ => Or.inr hlt⟩
            · constructor
              · rw [hvotes, hplayers, List.length_append]
                rcases hb.2 hph with h0 | hlt
                · simp [h0]
                  omega
                · simp
                  omega
              · intro hphv
                rw [hph1] at hphv
                cases hphv
      · exact hb
  | newGameEv now =>
      simp only [step]
      split
      · exact htp _ _ _
      · exact hb
  | forcePhaseEv p now => exact htp _ _ _
  | timerFireEv now =>
      simp only [step, fireTimer]
      split
      · exact hb
      · exact htp _ _ _
      · exact htp _ _ _
      · exact htp _ _ _

/-- Folding a trace preserves voter-id distinctness. -/
theorem foldl_nodup (evs : List Ev) :
    ∀ st : GMState, (voterIds st).Nodup →
      (voterIds (evs.foldl step st)).Nodup := by
  induction evs with
  | nil => exact fun st h => h
  | cons e rest ih =>
      intro st h
      rw [List.foldl_cons]
      exact ih _ (step_nodup st e h)

/-- Folding a non-shrinking trace preserves the vote bound. -/
theorem foldl_bound (evs : List Ev) :
    ∀ st : GMState, boundInv st → nonShrink st evs = true →
      boundInv (evs.foldl step st) := by
  induction evs with
  | nil => exact fun st h _ => h
  | cons e rest ih =>
      intro st h hns
      rw [List.foldl_cons]
      simp only [nonShrink, Bool.and_eq_true] at hns
      exact ih _ (step_bound st e h hns.1) hns.2

/-- C1 (amended): in every reachable state no voter id appears twice in
the collected votes; and along any trace in which `updatePlayers` never
shrinks the player list, the collected-vote count never exceeds the
player count.  (A mid-round shrink can break the bound — see the
counterexample.) -/
theorem votes_invariant_amended (evs : List Ev) :
    (voterIds (run evs)).Nodup ∧
    (nonShrink initGM evs = true →
      (run evs).gameState.votes.length ≤
        (run evs).gameState.players.length) := by
  constructor
  · exact foldl_nodup evs initGM (by simp [voterIds, initGM, initialGameState])
  · intro hns
    exact (foldl_bound evs initGM (by constructor <;> simp [initGM, initialGameState]) hns).1

/-- Witness for C1 on a concrete non-shrinking trace with one vote. -/
theorem votes_invariant_amended_witness :
    (voterIds (run growTrace)).Nodup ∧
    (run growTrace).gameState.votes.length ≤
      (run growTrace).gameState.players.length :=
  ⟨(votes_invariant_amended growTrace).1,
   (votes_invariant_amended growTrace).2 (by decide)⟩

/-- C1 counterexample: after two of three players leave mid-round, the
reachable state carries 2 collected votes against 1 active player, so
`votes.length ≤ players.length` fails. -/
theorem votes_bound_counterexample :
    ¬ ((run shrinkTrace).gameState.votes.length ≤
        (run shrinkTrace).gameState.players.length) := by
  decide

/-- One step keeps the discussion timer tied to the discussion phase. -/
theorem step_timerInv (st : GMState) (e : Ev) (h : timerInv st) :
    timerInv (step st e) := by
  have htp : ∀ (p : Phase) (d : TransitionData) (now : Nat),
      timerInv (transitionPhase st p d now) := by
    intro p d now hsome
    rw [tp_timer] at hsome
    rw [tp_phase]
    cases p <;> simp_all
  cases e with
  | updatePlayersEv ps => exact h
  | startGameEv i now =>
      simp only [step]
      split
      · split
        · exact htp _ _ _
        · exact h
      · exact h
  | voteEv voter target now =>
      simp only [step]
      split
      · cases hv : handleVote st voter target now with
        | error msg => exact h
        | ok st1 =>
            rcases handleVote_ok_cases st voter target now st1 hv with
              ⟨hph, _, _, _, hcase⟩
            rcases hcase with ⟨_, htimer, _, _⟩ | ⟨_, htimer, _⟩
            · intro hsome
              rw [htimer] at hsome
              have := h hsome
              rw [this] at hph
              cases hph
            · intro hsome
              rw [htimer] at hsome
              cases hsome
      · exact h
  | newGameEv now =>
      simp only [step]
      split
      · exact htp _ _ _
      · exact h
  | forcePhaseEv p now => exact htp _ _ _
  | timerFireEv now =>
      simp only [step, fireTimer]
      split
      · exact h
      · exact htp _ _ _
      · exact htp _ _ _
      · exact htp _ _ _

/-- One step keeps the waiting phase free of results payloads. -/
theorem step_waitingClear (st : GMState) (e : Ev) (h : waitingClear st) :
    waitingClear (step st e) := by
  have htp : ∀ (p : Phase) (d : TransitionData) (now : Nat),
      waitingClear (transitionPhase st p d now) := by
    intro p d now hph
    rw [tp_phase] at hph
    subst hph
    rw [tp_results]
    simp
  cases e with
  | updatePlayersEv ps => exact h
  | startGameEv i now =>
      simp only [step]
      split
      · split
        · exact htp _ _ _
        · exact h
      · exact h
  | voteEv voter target now =>
      simp only [step]
      split
      · cases hv : handleVote st voter target now with
        | error msg => exact h
        | ok st1 =>
            rcases handleVote_ok_cases st voter target now st1 hv with
              ⟨_, _, _, _, hcase⟩
            rcases hcase with ⟨hph1, _, _, _⟩ | ⟨hph1, _, _⟩ <;>
              · intro hph
                rw [hph1] at hph
                cases hph
      · exact h
  | newGameEv now =>
      simp only [step]
      split
      · exact htp _ _ _
      · exact h
  | forcePhaseEv p now => exact htp _ _ _
  | timerFireEv now =>
      simp only [step, fireTimer]
      split
      · exact h
      · exact htp _ _ _
      · exact htp _ _ _
      · exact htp _ _ _

/-- A non-admin step keeps results payloads confined to the results
phase. -/
theorem step_roir (st : GMState) (e : Ev) (ht : timerInv st)
    (hr : resultsOnlyInResults st) (hnf : isForce e = false) :
    resultsOnlyInResults (step st e) := by
  cases e with
  | updatePlayersEv ps => exact hr
  | startGameEv i now =>
      simp only [step]
      split
      · rename_i hcond
        split
        · intro r hres
          rw [tp_results] at hres
          simp at hres
          have := hr r hres
          rw [this] at hcond
          cases hcond.1
        · exact hr
      · exact hr
  | voteEv voter target now =>
      simp only [step]
      split
      · cases hv : handleVote st voter target now with
        | error msg => exact hr
        | ok st1 =>
            rcases handleVote_ok_cases st voter target now st1 hv with
              ⟨hph, _, _, _, hcase⟩
            rcases hcase with ⟨hph1, _, _, hres1⟩ | ⟨hph1, _, _⟩
            · intro r hres
              rw [hres1] at hres
              have := hr r hres
              rw [this] at hph
              cases hph
            · intro r _
              exact hph1
      · exact hr
  | newGameEv now =>
      simp only [step]
      split
      · intro r hres
        rw [tp_results] at hres
        simp at hres
      · exact hr
  | forcePhaseEv p now => cases hnf
  | timerFireEv now =>
      simp only [step, fireTimer]
      split
      · exact hr
      · rename_i heq
        intro r hres
        rw [tp_results] at hres
        simp at hres
        have hph := hr r hres
        have hdisc := ht heq
        rw [hph] at hdisc
        cases hdisc
      · intro r _
        exact tp_phase _ _ _ _
      · intro r hres
        rw [tp_results] at hres
        simp at hres

/-- Folding a trace preserves the waiting-phase guarantee. -/
theorem foldl_waitingClear (evs : List Ev) :
    ∀ st : GMState, waitingClear st →
      waitingClear (evs.foldl step st) := by
  induction evs with
  | nil => exact fun st h => h
  | cons e rest ih =>
      intro st h
      rw [List.foldl_cons]
      exact ih _ (step_waitingClear st e h)

/-- Folding a force-free trace keeps results confined to the results
phase. -/
theorem foldl_roir (evs : List Ev) :
    ∀ st : GMState, timerInv st → resultsOnlyInResults st →
      noForce evs = true → resultsOnlyInResults (evs.foldl step st) := by
  induction evs with
  | nil => exact fun st _ hr _ => hr
  | cons e rest ih =>
      intro st ht hr hnf
      simp only [noForce, List.all_cons, Bool.and_eq_true] at hnf
      have hnf1 : isForce e = false := by
        simpa using hnf.1
      rw [List.foldl_cons]
      refine ih _ (step_timerInv st e ht) (step_roir st e ht hr hnf1) ?_
      simpa [noForce] using hnf.2

/-- C5 (amended): in every reachable waiting-phase state the public view
carries no results payload, and along traces that never use the admin
`force_phase_transition` path the public view carries a results payload
(the only place the imposter id appears) only in the results phase.  A
forced transition out of results can leak the payload — see the
counterexample. -/
theorem public_view_results_gating (evs : List Ev) :
    ((run evs).gameState.phase = Phase.waiting →
      (getPublicGameState (run evs).gameState).results = none) ∧
    (noForce evs = true → (run evs).gameState.phase ≠ Phase.results →
      (getPublicGameState (run evs).gameState).results = none) := by
  have hpub : ∀ gs : GameState, (getPublicGameState gs).results = gs.results :=
    fun _ => rfl
  constructor
  · intro hph
    rw [hpub]
    refine foldl_waitingClear evs initGM ?_ hph
    intro _
    rfl
  · intro hnf hph
    rw [hpub]
    have hinv : resultsOnlyInResults (run evs) := by
      refine foldl_roir evs initGM ?_ ?_ hnf
      · intro hsome
        simp [initGM] at hsome
      · intro r hres
        simp [initGM, initialGameState] at hres
    cases hres : (run evs).gameState.results with
    | none => rfl
    | some r => exact absurd (hinv r hres) hph

/-- Witness for C5: the initial state (waiting) and a force-free trace
ending in the question phase both show no results payload. -/
theorem public_view_results_gating_witness :
    (getPublicGameState (run []).gameState).results = none ∧
    (getPublicGameState (run questionTrace).gameState).results = none :=
  ⟨(public_view_results_gating []).1 (by decide),
   (public_view_results_gating questionTrace).2 (by decide) (by decide)⟩

/-- C5 counterexample: after start-game, force-results, force-voting,
the session sits in the voting phase while the public view still carries
the stale results payload whose `imposter` field names the current
round's imposter. -/
theorem public_view_imposter_leak :
    (run leakTrace).gameState.phase = Phase.voting ∧
    (run leakTrace).gameState.imposter = some "p1" ∧
    ((getPublicGameState (run leakTrace).gameState).results.map
      (fun r => r.imposter)) = some (some "p1") := by
  decide
